import Mathlib

/-!
Shallow embedding of two modules of the `rasa` repository:
  * `rasa/nlu/training_data/formats/dialogflow.py` (`DialogflowReader`)
  * `rasa/core/jobs.py` (scheduler singleton accessor)
Definitions follow the Python source line by line; machine-level effects
(file system access, warnings) are made explicit (the file system is a map
from path to parsed JSON content, warnings are a boolean output).
-/

deriving instance DecidableEq for Except

namespace Rasa

/-! ## Data model for the Dialogflow reader -/

/-- One text chunk of a Dialogflow example record: a JSON object with a
`text` field and optional `meta` / `alias` fields (`meta_` / `alias_`
stand for the source's `meta` / `alias` keys, which are reserved words
in Lean). -/
structure Chunk where
  text : String
  meta_ : Option String
  alias_ : Option String
deriving DecidableEq, Repr

/-- Modelled from the spec: an entity span record
`\x7bstart offset, end offset, covered text, entity type label\x7d`
(spec section 3, "Entity span"). `end_` stands for the source's `end` key,
which is a reserved word in Lean. -/
structure Entity where
  start : Nat
  end_ : Nat
  value : String
  entity : String
deriving DecidableEq, Repr

/-- Modelled from the spec: a training example
`\x7btext, intent label: optional string, list of entity spans\x7d`
(spec section 3, "Training example"); stands for `Message` of
`rasa.nlu.training_data`, which is not part of the excerpt. -/
structure Message where
  text : String
  intent : Option String
  entities : List Entity
deriving DecidableEq, Repr

/-- A lookup table as built by `_extract_lookup_tables`:
`\x7b"name": name, "elements": elements\x7d`. -/
structure LookupTable where
  name : Option String
  elements : List String
deriving DecidableEq, Repr

/-- Modelled from the spec: a training-data batch
(spec sections 3 and 6: examples, entity synonym map, lookup tables);
stands for `TrainingData` of `rasa.nlu.training_data`, which is not part
of the excerpt.  The synonym map is kept as an association list
surface form to canonical value. -/
structure TrainingData where
  training_examples : List Message
  entity_synonyms : List (String × String)
  lookup_tables : Option (List LookupTable)
deriving DecidableEq, Repr

/-- The empty batch `TrainingData()` returned on the no-examples path. -/
def TrainingData.empty : TrainingData := ⟨[], [], none⟩

/-- One record of an examples file: a JSON object that may carry a `data`
field (intent examples), or `value` / `synonyms` fields (entity entries). -/
structure DFExample where
  data : Option (List Chunk)
  value : Option String
  synonyms : Option (List String)
deriving DecidableEq, Repr

/-- The root descriptor JSON object; only its `name` field is ever read
(`.get("name")` returns `None` when absent). -/
structure RootJs where
  name : Option String
deriving DecidableEq, Repr

/-- Parsed JSON content of a file, restricted to the two shapes the reader
touches: an object (root descriptor) or an array of example records. -/
inductive DFJson where
  | obj (r : RootJs)
  | arr (l : List DFExample)
deriving DecidableEq, Repr

/-- The Python exceptions that can escape the modelled fragment.
`unsupportedFormat` is the spec's `UnsupportedFormatError` (the source
raises `ValueError`); `keyError` a `KeyError` from a `chunk["meta"]` /
`ex["data"]` access; `ioError` a failed `read_json_file`; `attributeError`
/ `typeError` shape errors on JSON of the wrong shape. -/
inductive DFError where
  | unsupportedFormat
  | keyError
  | ioError
  | attributeError
  | typeError
deriving DecidableEq, Repr

/-- A file system: a map from path to the parsed JSON content of the file
at that path, `none` when no file exists there (`os.path.isfile` false, or
`read_json_file` would fail). -/
def FileSystem : Type := String → Option DFJson

def DIALOGFLOW_INTENT : String := "dialogflow_intent"
def DIALOGFLOW_ENTITIES : String := "dialogflow_entities"

/-- The character-list worker behind `str_replace`, structurally recursive
on a fuel argument so that the kernel can evaluate it (`String.replace`
of the Lean core library is well-founded-recursive and does not reduce).
Scans left to right and replaces non-overlapping occurrences, exactly as
Python's `str.replace` does for a non-empty pattern. -/
def replace_fuel (pattern repl : List Char) : Nat → List Char → List Char
  | 0, s => s
  | _ + 1, [] => []
  | n + 1, c :: rest =>
    if pattern ≠ [] ∧ pattern.isPrefixOf (c :: rest) then
      repl ++ replace_fuel pattern repl n (List.drop (pattern.length - 1) rest)
    else
      c :: replace_fuel pattern repl n rest

/-- Python's `s.replace(pattern, repl)` for a non-empty `pattern`:
replace every (non-overlapping, leftmost-first) occurrence. -/
def str_replace (s pattern repl : String) : String :=
  ⟨replace_fuel pattern.data repl.data s.data.length s.data⟩

/-! ## DialogflowReader -/

/-- Modelled from the spec: `rasa.nlu.utils.build_entity` (not in the
excerpt) builds the entity span record from start, end, covered text and
entity type label; the label is stored exactly as resolved by the caller
(spec section 3, "Entity span", and section 4.2). -/
def build_entity (start end_ : Nat) (value entity_type : String) : Entity :=
  ⟨start, end_, value, entity_type⟩

/-- The label resolution `chunk.get("alias", chunk["meta"])`: Python evaluates the *default*
argument `chunk["meta"]` before the call, so a chunk without a `meta`
field raises `KeyError` even when an `alias` field is present. -/
def chunk_entity_type (chunk : Chunk) : Except DFError String :=
  match chunk.meta_ with
  | none => .error .keyError
  | some m => .ok (chunk.alias_.getD m)

/-- Source method `DialogflowReader._extract_entity(chunk, current_offset)`. -/
def _extract_entity (chunk : Chunk) (current_offset : Nat) :
    Except DFError (Option Entity) :=
  if chunk.meta_.isSome || chunk.alias_.isSome then do
    let start := current_offset
    let text := chunk.text
    let entity_type ← chunk_entity_type chunk
    if entity_type ≠ "@sys.ignore" then
      .ok (some (build_entity start (start + text.length) text entity_type))
    else
      .ok none
  else
    .ok none

/-- The loop body of `DialogflowReader._join_text_chunks`, with the running
`utterance` and `entities` accumulators explicit. -/
def _join_text_chunks_aux :
    List Chunk → String → List Entity → Except DFError (String × List Entity)
  | [], utterance, entities => .ok (utterance, entities)
  | chunk :: rest, utterance, entities => do
    let eOpt ← _extract_entity chunk utterance.length
    let entities' := match eOpt with
      | some e => entities ++ [e]
      | none => entities
    _join_text_chunks_aux rest (utterance ++ chunk.text) entities'

/-- Source method `DialogflowReader._join_text_chunks(chunks)`: starts from the empty
utterance and entity list. -/
def _join_text_chunks (chunks : List Chunk) :
    Except DFError (String × List Entity) :=
  _join_text_chunks_aux chunks "" []

/-- The loop of `DialogflowReader._read_intent` over the example records:
`ex["data"]` (a `KeyError` when absent), `_join_text_chunks`, then
`Message.build(text, intent, entities)` appended in order. -/
def _read_intent_examples (intent : Option String) :
    List DFExample → Except DFError (List Message)
  | [] => .ok []
  | ex :: rest => do
    match ex.data with
    | none => .error .keyError
    | some chunks => do
      let te ← _join_text_chunks chunks
      let msgs ← _read_intent_examples intent rest
      .ok (⟨te.1, intent, te.2⟩ :: msgs)

/-- Source method `DialogflowReader._read_intent(intent_js, examples_js)`:
`intent_js.get("name")` needs an object (a list raises `AttributeError`);
iterating a non-list `examples_js` and indexing `ex["data"]` raises
`TypeError`. -/
def _read_intent (intent_js examples_js : DFJson) :
    Except DFError TrainingData :=
  match intent_js with
  | .arr _ => .error .attributeError
  | .obj r =>
    match examples_js with
    | .obj _ => .error .typeError
    | .arr exs => do
      let msgs ← _read_intent_examples r.name exs
      .ok ⟨msgs, [], none⟩

/-- Source method `DialogflowReader._flatten(list_of_lists)`. -/
def _flatten {α : Type} (list_of_lists : List (List α)) : List α :=
  list_of_lists.flatten

/-- Python's `"@" in synonym`: for the one-character pattern the substring
test equals a character-membership test on the string's characters. -/
def at_sign_in (synonym : String) : Bool :=
  synonym.data.contains '@'

/-- Source method `DialogflowReader._extract_lookup_tables(name, examples)`:
`[e["synonyms"] for e in examples if "synonyms" in e]`, flattened, keeping
the synonyms with no `"@"` occurrence, and `None` when the element list is
empty (Python list truthiness). -/
def _extract_lookup_tables (name : Option String) (examples : List DFExample) :
    Option (List LookupTable) :=
  let synonyms := (examples.filter (fun e => e.synonyms.isSome)).map
    (fun e => e.synonyms.getD [])
  let synonyms := _flatten synonyms
  let elements := synonyms.filter (fun synonym => ! at_sign_in synonym)
  if elements.isEmpty then none else some [⟨name, elements⟩]

/-- Modelled from the spec: `transform_entity_synonyms`
(`rasa.nlu.training_data.util`, not in the excerpt) derives the synonym
mapping from alternate surface form to canonical entity value from the
records' `value` / `synonyms` fields (spec sections 3, 4.2 "Entities
path" and the glossary's "Synonym map"). -/
def transform_entity_synonyms (examples : List DFExample) :
    List (String × String) :=
  examples.flatMap (fun e =>
    match e.value, e.synonyms with
    | some v, some syns => syns.map (fun s => (s, v))
    | _, _ => [])

/-- Source method `DialogflowReader._read_entities(entity_js, examples_js)`.
The synonym transform iterates `examples_js` (a non-list raises
`TypeError` in the modelled fragment), `entity_js.get("name")` needs an
object. -/
def _read_entities (entity_js examples_js : DFJson) :
    Except DFError TrainingData :=
  match examples_js with
  | .obj _ => .error .typeError
  | .arr exs =>
    match entity_js with
    | .arr _ => .error .attributeError
    | .obj r =>
      let entity_synonyms := transform_entity_synonyms exs
      let name := r.name
      let lookup_tables := _extract_lookup_tables name exs
      .ok ⟨[], entity_synonyms, lookup_tables⟩

/-- The examples-file path derived inside `_read_examples_js`:
`fn.replace(".json", f"_\x7bexamples_type\x7d_\x7blanguage\x7d.json")`.
Python's `str.replace` (like Lean's `String.replace`) replaces **every**
occurrence of `".json"` in the path, not only a trailing extension. -/
def _examples_fn (fn language fformat : String) : String :=
  let examples_type := if fformat = DIALOGFLOW_INTENT then "usersays" else "entries"
  let examples_fn_ending := "_" ++ examples_type ++ "_" ++ language ++ ".json"
  str_replace fn ".json" examples_fn_ending

/-- Source method `DialogflowReader._read_examples_js(fn, language, fformat)`: load the
derived sibling file when it exists, else `None`. -/
def _read_examples_js (fs : FileSystem) (fn language fformat : String) :
    Option DFJson :=
  fs (_examples_fn fn language fformat)

/-- Python truthiness of the loaded examples content: `None`, and an empty
JSON array, are falsy (`if not examples_js`). -/
def examples_falsy : Option DFJson → Bool
  | none => true
  | some (.arr []) => true
  | some _ => false

/-- Source method `DialogflowReader.read(fn, language=..., fformat=...)` over an explicit
file system. The boolean output records whether the non-fatal
"No training examples found" warning was emitted. -/
def read (fs : FileSystem) (fn language fformat : String) :
    Except DFError (Bool × TrainingData) :=
  if fformat ≠ DIALOGFLOW_INTENT ∧ fformat ≠ DIALOGFLOW_ENTITIES then
    .error .unsupportedFormat
  else
    match fs fn with
    | none => .error .ioError
    | some root_js =>
      let examples_js := _read_examples_js fs fn language fformat
      if examples_falsy examples_js then
        .ok (true, TrainingData.empty)
      else
        match examples_js with
        | none => .ok (true, TrainingData.empty)
        | some ex_js =>
          if fformat = DIALOGFLOW_INTENT then do
            let td ← _read_intent root_js ex_js
            .ok (false, td)
          else do
            let td ← _read_entities root_js ex_js
            .ok (false, td)

/-! ## Scheduler singleton (`rasa/core/jobs.py`)

The scheduler accessor is modelled as an explicit state transformer.
An `AsyncIOScheduler` instance is abstracted to its observable attributes:
a construction identifier (so that distinct constructions are
distinguishable), the event loop it was constructed with, whether
`start()` ran, and the time zone it resolved.  The environment captures
the outcome of the external time-zone subsystem: whether the local time
zone resolves, and whether the forced-UTC construction fails. -/

/-- The time zone an `AsyncIOScheduler` construction ends up with. -/
inductive Tz where
  | localtz
  | utc
deriving DecidableEq, Repr

/-- The failures of the scheduler accessor. `inconsistentContext` is the
spec's `InconsistentContextError` (the source raises `RuntimeError` with
the "Detected inconsistent loop usage" message); `unknownTimeZone` is
`pytz.UnknownTimeZoneError`; `constructionFailure` any other error of the
forced-UTC construction. -/
inductive SchedErr where
  | unknownTimeZone
  | inconsistentContext
  | constructionFailure
deriving DecidableEq, Repr

/-- The observable attributes of one `AsyncIOScheduler` instance:
`id` identifies the construction (fresh per construction), `eventloop`
models the `_eventloop` attribute (the event loop passed at construction,
identified by a number), `running` whether `start()` ran, `timezone` the
resolved time zone. -/
structure Sched where
  id : Nat
  eventloop : Nat
  running : Bool
  timezone : Tz
deriving DecidableEq, Repr

/-- The module state: the `__scheduler` global (`none` models Python
`None`) together with the supply of fresh construction identifiers. -/
structure SchedState where
  inst : Option Sched
  nextId : Nat
deriving DecidableEq, Repr

/-- The initial module state: `__scheduler = None`. -/
def SchedState.init : SchedState := ⟨none, 0⟩

/-- The behaviour of the external time-zone subsystem during a call:
`localTzKnown` tells whether constructing without an explicit time zone
resolves a local time zone (otherwise `AsyncIOScheduler(...)` raises
`UnknownTimeZoneError`), `utcFailure` is the error of the
`AsyncIOScheduler(..., timezone=utc)` construction when that one fails. -/
structure SchedEnv where
  localTzKnown : Bool
  utcFailure : Option SchedErr
deriving DecidableEq, Repr

/-- The outcome of one `scheduler()` call: which constructions were
attempted (by time zone, in order), whether the non-fatal time-zone
warning was emitted, and the returned instance with the new module state
(or the escaping exception). -/
structure SchedResult where
  attempts : List Tz
  warned : Bool
  result : Except SchedErr (Sched × SchedState)
deriving DecidableEq, Repr

/-- Source function `scheduler()` of `rasa/core/jobs.py` over explicit state.
`loop` is the caller's current event loop (`asyncio.get_event_loop()`).
 -/
def scheduler (env : SchedEnv) (loop : Nat) (st : SchedState) : SchedResult :=
  match st.inst with
  | none =>
    if env.localTzKnown then
      let s : Sched := ⟨st.nextId, loop, true, .localtz⟩
      ⟨[.localtz], false, .ok (s, ⟨some s, st.nextId + 1⟩)⟩
    else
      match env.utcFailure with
      | none =>
        let s : Sched := ⟨st.nextId, loop, true, .utc⟩
        ⟨[.localtz, .utc], true, .ok (s, ⟨some s, st.nextId + 1⟩)⟩
      | some e =>
        ⟨[.localtz, .utc], true, .error e⟩
  | some s =>
    if s.eventloop = loop then
      ⟨[], false, .ok (s, st)⟩
    else
      ⟨[], false, .error .inconsistentContext⟩

/-- Source function `kill_scheduler()`: shut the instance down and clear the global when
one exists, do nothing otherwise.  The first component is the instance
that was shut down (`none` when the call was a no-op); the function is
total — it never fails. -/
def kill_scheduler (st : SchedState) : Option Sched × SchedState :=
  match st.inst with
  | some s => (some ⟨s.id, s.eventloop, false, s.timezone⟩, ⟨none, st.nextId⟩)
  | none => (none, st)

/-- The states and returned-instance histories reachable from the initial
module state through `scheduler` / `kill_scheduler` calls: `Hist st rets`
says the module can be in state `st` with `rets` the instances handed out
so far (most recent first). -/
inductive Hist : SchedState → List Sched → Prop where
  | init : Hist SchedState.init []
  | get {st rets env loop s st'} : Hist st rets →
      (scheduler env loop st).result = .ok (s, st') → Hist st' (s :: rets)
  | kill {st rets} : Hist st rets → Hist (kill_scheduler st).2 rets

/-! ## Auxiliary lemmas -/

lemma except_bind_ok {ε α β : Type} (a : α) (f : α → Except ε β) :
    (Except.ok a >>= f) = f a := rfl

lemma except_bind_error {ε α β : Type} (e : ε) (f : α → Except ε β) :
    ((Except.error e : Except ε α) >>= f) = Except.error e := rfl

lemma str_data_append (a b : String) : (a ++ b).data = a.data ++ b.data := rfl

lemma str_length_append (a b : String) :
    (a ++ b).length = a.length + b.length := by
  show (a ++ b).data.length = a.data.length + b.data.length
  rw [str_data_append, List.length_append]

lemma str_append_empty (s : String) : s ++ "" = s :=
  String.ext (by rw [str_data_append]; exact List.append_nil _)

lemma str_empty_append (s : String) : "" ++ s = s :=
  String.ext (by rw [str_data_append]; rfl)

lemma str_append_assoc (a b c : String) : a ++ b ++ c = a ++ (b ++ c) :=
  String.ext (by simp only [str_data_append]; exact List.append_assoc _ _ _)

/-- Value-level characterization of `_extract_entity`, by the shape of the
chunk's `meta` / `alias` fields. -/
lemma _extract_entity_eq (c : Chunk) (off : Nat) :
    _extract_entity c off =
      match c.meta_ with
      | none =>
        if c.alias_.isSome then .error .keyError else .ok none
      | some m =>
        if c.alias_.getD m = "@sys.ignore" then .ok none
        else .ok (some ⟨off, off + c.text.length, c.text, c.alias_.getD m⟩) := by
  cases hm : c.meta_ <;> cases ha : c.alias_ <;>
    simp [_extract_entity, chunk_entity_type, build_entity, hm, ha,
      except_bind_ok, except_bind_error]

/-- Shared: `read` returns the warned empty batch whenever the loaded
examples content is falsy (missing file or empty JSON array), provided the
format is recognized and the root file is readable. -/
lemma read_falsy (fs : FileSystem) (fn language fformat : String)
    (root : DFJson)
    (hfmt : fformat = DIALOGFLOW_INTENT ∨ fformat = DIALOGFLOW_ENTITIES)
    (hroot : fs fn = some root)
    (hfalsy : examples_falsy (_read_examples_js fs fn language fformat) = true) :
    read fs fn language fformat = .ok (true, TrainingData.empty) := by
  have hf : ¬ (fformat ≠ DIALOGFLOW_INTENT ∧ fformat ≠ DIALOGFLOW_ENTITIES) := by
    rcases hfmt with h | h <;> simp [h]
  unfold read
  rw [if_neg hf, hroot]
  simp only [hfalsy, if_true]

/-- A span actually produced by `_extract_entity` never carries the
`"@sys.ignore"` label. -/
lemma _extract_entity_ok_some {c : Chunk} {off : Nat} {e : Entity}
    (h : _extract_entity c off = .ok (some e)) : e.entity ≠ "@sys.ignore" := by
  rw [_extract_entity_eq] at h
  cases hm : c.meta_ with
  | none =>
    rw [hm] at h
    have h2 : (if c.alias_.isSome then (.error .keyError : Except DFError (Option Entity))
        else .ok none) = .ok (some e) := h
    by_cases ha : c.alias_.isSome = true
    · rw [if_pos ha] at h2; exact absurd h2 (by simp)
    · rw [if_neg ha] at h2; exact absurd h2 (by simp)
  | some m =>
    rw [hm] at h
    have h2 : (if c.alias_.getD m = "@sys.ignore"
          then (.ok none : Except DFError (Option Entity))
          else .ok (some ⟨off, off + c.text.length, c.text, c.alias_.getD m⟩))
        = .ok (some e) := h
    by_cases hig : c.alias_.getD m = "@sys.ignore"
    · rw [if_pos hig] at h2; exact absurd h2 (by simp)
    · rw [if_neg hig] at h2
      have he : (⟨off, off + c.text.length, c.text, c.alias_.getD m⟩ : Entity) = e := by
        simpa using h2
      rw [← he]
      simpa using hig

/-- Spans accumulated by the `_join_text_chunks` loop either were in the
accumulator already or do not carry the `"@sys.ignore"` label. -/
lemma _join_aux_ne :
    ∀ (chunks : List Chunk) (utterance : String) (entities : List Entity)
      (u : String) (es : List Entity),
      _join_text_chunks_aux chunks utterance entities = .ok (u, es) →
      ∀ e ∈ es, e ∈ entities ∨ e.entity ≠ "@sys.ignore" := by
  intro chunks
  induction chunks with
  | nil =>
    intro utt ents u es h e he
    simp [_join_text_chunks_aux] at h
    exact Or.inl (h.2 ▸ he)
  | cons c cs ih =>
    intro utt ents u es h e he
    unfold _join_text_chunks_aux at h
    cases hx : _extract_entity c utt.length with
    | error err => rw [hx, except_bind_error] at h; exact absurd h (by simp)
    | ok eOpt =>
      rw [hx, except_bind_ok] at h
      cases eOpt with
      | none => exact ih _ _ _ _ h e he
      | some e0 =>
        rcases ih _ _ _ _ h e he with hmem | hne
        · rcases List.mem_append.mp hmem with h1 | h2
          · exact Or.inl h1
          · simp at h2
            exact Or.inr (h2 ▸ _extract_entity_ok_some hx)
        · exact Or.inr hne

/-- No span produced by `_join_text_chunks` carries `"@sys.ignore"`. -/
lemma _join_text_chunks_ne {chunks : List Chunk} {u : String}
    {es : List Entity} (h : _join_text_chunks chunks = .ok (u, es)) :
    ∀ e ∈ es, e.entity ≠ "@sys.ignore" := fun e he =>
  (_join_aux_ne chunks "" [] u es h e he).resolve_left (by simp)

/-- No message built by the `_read_intent` loop carries an
`"@sys.ignore"` span. -/
lemma _read_intent_examples_ne {intent : Option String} :
    ∀ {exs : List DFExample} {msgs : List Message},
      _read_intent_examples intent exs = .ok msgs →
      ∀ m ∈ msgs, ∀ e ∈ m.entities, e.entity ≠ "@sys.ignore" := by
  intro exs
  induction exs with
  | nil =>
    intro msgs h m hm
    simp [_read_intent_examples] at h
    subst h
    simp at hm
  | cons ex rest ih =>
    intro msgs h m hm e he
    unfold _read_intent_examples at h
    cases hd : ex.data with
    | none => rw [hd] at h; exact absurd h (by simp)
    | some chunks =>
      rw [hd] at h
      have h' : (_join_text_chunks chunks >>= fun te =>
          _read_intent_examples intent rest >>= fun msgs' =>
          Except.ok (⟨te.1, intent, te.2⟩ :: msgs')) = Except.ok msgs := h
      cases hj : _join_text_chunks chunks with
      | error err => rw [hj, except_bind_error] at h'; exact absurd h' (by simp)
      | ok te =>
        rw [hj, except_bind_ok] at h'
        cases hr : _read_intent_examples intent rest with
        | error err => rw [hr, except_bind_error] at h'; exact absurd h' (by simp)
        | ok msgs' =>
          rw [hr, except_bind_ok] at h'
          obtain rfl : (⟨te.1, intent, te.2⟩ : Message) :: msgs' = msgs := by
            simpa using h'
          rcases List.mem_cons.mp hm with rfl | hm'
          · exact _join_text_chunks_ne hj e he
          · exact ih hr m hm' e he

/-- Follows the spec's words (section 4.2, "Intent path"): the full
utterance is the concatenation of all chunk texts in order.  Reference
definition for the refinement claim C1; to be compared with the
source-derived `_join_text_chunks`. -/
def spec_concat_texts : List Chunk → String
  | [] => ""
  | c :: cs => c.text ++ spec_concat_texts cs

/-- Follows the spec's words (section 4.2, "Intent path", as amended by
claim C1's counterexample): walking the chunks with the running offset,
each chunk carrying a `meta` field whose resolved label (`alias` if
present else `meta`) differs from `"@sys.ignore"` contributes the span
`[offset, offset + len(text))` labelled with the resolved label.
Reference definition for the refinement claim C1. -/
def spec_spans : List Chunk → Nat → List Entity
  | [], _ => []
  | c :: cs, off =>
    let tail := spec_spans cs (off + c.text.length)
    match c.meta_ with
    | some m =>
      if c.alias_.getD m = "@sys.ignore" then tail
      else ⟨off, off + c.text.length, c.text, c.alias_.getD m⟩ :: tail
    | none => tail

/-- The `_join_text_chunks` loop, against the spec-style recursion: on a
successful run the utterance is the accumulator followed by the
concatenated texts and the spans are the accumulated ones followed by the
running-offset spans. -/
lemma _join_aux_spec :
    ∀ (chunks : List Chunk) (acc : String) (es0 : List Entity)
      (u : String) (es : List Entity),
      _join_text_chunks_aux chunks acc es0 = .ok (u, es) →
      u = acc ++ spec_concat_texts chunks
      ∧ es = es0 ++ spec_spans chunks acc.length := by
  intro chunks
  induction chunks with
  | nil =>
    intro acc es0 u es h
    simp [_join_text_chunks_aux] at h
    simp [spec_concat_texts, spec_spans, ← h.1, ← h.2, str_append_empty]
  | cons c cs ih =>
    intro acc es0 u es h
    unfold _join_text_chunks_aux at h
    rw [_extract_entity_eq] at h
    cases hm : c.meta_ with
    | none =>
      rw [hm] at h
      cases ha : c.alias_ with
      | some a =>
        rw [ha] at h
        exact absurd h (by simp [except_bind_error])
      | none =>
        rw [ha] at h
        have h' : _join_text_chunks_aux cs (acc ++ c.text) es0 = .ok (u, es) := h
        obtain ⟨h1, h2⟩ := ih _ _ _ _ h'
        refine ⟨by rw [h1, str_append_assoc]; rfl, ?_⟩
        rw [h2]
        simp [spec_spans, hm, str_length_append]
    | some m =>
      rw [hm] at h
      have hb : ((if c.alias_.getD m = "@sys.ignore"
            then (.ok none : Except DFError (Option Entity))
            else .ok (some ⟨acc.length, acc.length + c.text.length, c.text,
              c.alias_.getD m⟩)) >>= fun eOpt =>
          _join_text_chunks_aux cs (acc ++ c.text)
            (match eOpt with | some e => es0 ++ [e] | none => es0))
          = .ok (u, es) := h
      by_cases hig : c.alias_.getD m = "@sys.ignore"
      · rw [if_pos hig, except_bind_ok] at hb
        have h' : _join_text_chunks_aux cs (acc ++ c.text) es0 = .ok (u, es) := hb
        obtain ⟨h1, h2⟩ := ih _ _ _ _ h'
        refine ⟨by rw [h1, str_append_assoc]; rfl, ?_⟩
        rw [h2]
        simp [spec_spans, hm, hig, str_length_append]
      · rw [if_neg hig, except_bind_ok] at hb
        have h' : _join_text_chunks_aux cs (acc ++ c.text)
            (es0 ++ [⟨acc.length, acc.length + c.text.length, c.text,
              c.alias_.getD m⟩]) = .ok (u, es) := hb
        obtain ⟨h1, h2⟩ := ih _ _ _ _ h'
        refine ⟨by rw [h1, str_append_assoc]; rfl, ?_⟩
        rw [h2]
        simp [spec_spans, hm, hig, str_length_append]

/-- The elements computed inside `_extract_lookup_tables`
(select-then-flatten-then-filter) agree with filtering each record's
synonyms in place and concatenating. -/
lemma lookup_elements_eq (exs : List DFExample) :
    (_flatten ((exs.filter (fun e => e.synonyms.isSome)).map
        (fun e => e.synonyms.getD []))).filter (fun s => ! at_sign_in s)
      = exs.flatMap
          (fun e => (e.synonyms.getD []).filter (fun s => ! at_sign_in s)) := by
  induction exs with
  | nil => rfl
  | cons e rest ih =>
    cases hs : e.synonyms with
    | none => simpa [_flatten, hs] using ih
    | some l => simpa [_flatten, hs, List.filter_append] using ih

/-! ## Claims -/

/-- Claim C2 (code bug): the entity type label should be `alias` if
present else `meta`; a chunk carrying only an `alias` field should yield a
span labelled with the alias value.  The code evaluates the default
argument in `chunk.get("alias", chunk["meta"])` eagerly, so an alias-only
chunk raises `KeyError` instead (first conjunct); with both fields
present the alias does win (second conjunct). -/
theorem dialogflow_c2 :
    _extract_entity ⟨"flight", none, some "flight_type"⟩ 7
      = .error .keyError
    ∧ _extract_entity ⟨"flight", some "@ft", some "flight_type"⟩ 7
      = .ok (some ⟨7, 13, "flight", "flight_type"⟩)
    ∧ _extract_entity ⟨"flight", some "@flight_type", none⟩ 7
      = .ok (some ⟨7, 13, "flight", "@flight_type"⟩) := by
  decide

/-- Claim C8: a `read` call with a format value other than the two
recognized kinds fails with the unsupported-format error, and the result
does not depend on the file system at all — no file is accessed. -/
theorem dialogflow_c8 (fs : FileSystem) (fn language fformat : String)
    (h1 : fformat ≠ DIALOGFLOW_INTENT) (h2 : fformat ≠ DIALOGFLOW_ENTITIES) :
    read fs fn language fformat = .error .unsupportedFormat
    ∧ ∀ fs' : FileSystem,
        read fs fn language fformat = read fs' fn language fformat := by
  refine ⟨?_, fun fs' => ?_⟩ <;> simp [read, h1, h2]

/-- Witness for C8 at `fformat = "unsupported_value"`. -/
theorem dialogflow_c8_witness :
    read (fun _ => none) "greet.json" "en" "unsupported_value"
      = .error .unsupportedFormat
    ∧ ∀ fs' : FileSystem,
        read (fun _ => none) "greet.json" "en" "unsupported_value"
          = read fs' "greet.json" "en" "unsupported_value" :=
  dialogflow_c8 (fun _ => none) "greet.json" "en" "unsupported_value"
    (by decide) (by decide)

/-- Claim C5, amended: the sibling examples path is derived by replacing
**every** occurrence of the substring `".json"` in the root path (for a
path whose only occurrence is its extension this is exactly the extension
replacement) with the `_<usersays|entries>_<language>.json` suffix; when
the root file is readable but no file exists at the derived path, `read`
returns the warned empty batch rather than failing. -/
theorem dialogflow_c5 (fs : FileSystem) (fn language fformat : String)
    (root : DFJson)
    (hfmt : fformat = DIALOGFLOW_INTENT ∨ fformat = DIALOGFLOW_ENTITIES)
    (hroot : fs fn = some root)
    (hmiss : fs (_examples_fn fn language fformat) = none) :
    read fs fn language fformat = .ok (true, TrainingData.empty)
    ∧ _examples_fn fn language fformat
      = str_replace fn ".json"
          ("_" ++ (if fformat = DIALOGFLOW_INTENT then "usersays" else "entries")
            ++ "_" ++ language ++ ".json") := by
  constructor
  · apply read_falsy fs fn language fformat root hfmt hroot
    simp [examples_falsy, _read_examples_js, hmiss]
  · rfl

/-- Counterexample to C5 as stated: on a root path with two `".json"`
occurrences the derived path is not the `.json`-extension replacement,
and `read` ignores an examples file placed at the extension-replacement
path (returning the warned empty batch instead of its examples). -/
theorem dialogflow_c5_counterexample :
    _examples_fn "a.json.json" "en" DIALOGFLOW_INTENT
      = "a_usersays_en.json_usersays_en.json"
    ∧ _examples_fn "a.json.json" "en" DIALOGFLOW_INTENT
      ≠ "a.json_usersays_en.json"
    ∧ read
        (fun p =>
          if p = "a.json.json" then some (.obj ⟨some "a"⟩)
          else if p = "a.json_usersays_en.json" then
            some (.arr [⟨some [⟨"hi", none, none⟩], none, none⟩])
          else none)
        "a.json.json" "en" DIALOGFLOW_INTENT
      = .ok (true, TrainingData.empty) := by
  decide

/-- Witness for C5 on `greet.json` / language `en` / intent format, with a
file system holding only the root file. -/
theorem dialogflow_c5_witness :
    read (fun p => if p = "greet.json" then some (.obj ⟨some "greet"⟩) else none)
        "greet.json" "en" DIALOGFLOW_INTENT
      = .ok (true, TrainingData.empty)
    ∧ _examples_fn "greet.json" "en" DIALOGFLOW_INTENT
      = str_replace "greet.json" ".json"
          ("_" ++ (if DIALOGFLOW_INTENT = DIALOGFLOW_INTENT then "usersays" else "entries")
            ++ "_" ++ "en" ++ ".json") :=
  dialogflow_c5
    (fun p => if p = "greet.json" then some (.obj ⟨some "greet"⟩) else none)
    "greet.json" "en" DIALOGFLOW_INTENT (.obj ⟨some "greet"⟩)
    (Or.inl rfl) (by decide) (by decide)

/-- Claim C10: an existing sibling examples file whose JSON content is the
empty array yields the same warned empty batch as a missing sibling
file. -/
theorem dialogflow_c10 (fs : FileSystem) (fn language fformat : String)
    (root : DFJson)
    (hfmt : fformat = DIALOGFLOW_INTENT ∨ fformat = DIALOGFLOW_ENTITIES)
    (hroot : fs fn = some root)
    (hempty : fs (_examples_fn fn language fformat) = some (.arr [])) :
    read fs fn language fformat = .ok (true, TrainingData.empty)
    ∧ ∀ fs' : FileSystem, fs' fn = some root →
        fs' (_examples_fn fn language fformat) = none →
        read fs' fn language fformat = read fs fn language fformat := by
  have h1 : read fs fn language fformat = .ok (true, TrainingData.empty) := by
    apply read_falsy fs fn language fformat root hfmt hroot
    simp [examples_falsy, _read_examples_js, hempty]
  refine ⟨h1, fun fs' hroot' hmiss' => ?_⟩
  rw [h1]
  apply read_falsy fs' fn language fformat root hfmt hroot'
  simp [examples_falsy, _read_examples_js, hmiss']

/-- Claim C1, amended: on every successful run, the intent path builds the
utterance by concatenating all chunk texts in order, and the emitted spans
are exactly the running-offset spans: for each chunk carrying a `meta`
field whose resolved label (`alias` if present else `meta`) differs from
`"@sys.ignore"`, a span whose start is the length of the utterance built
from the preceding chunks and whose end is start plus the length of the
chunk's text, labelled with the resolved value — for the example chunks,
the single span `\x7bstart:7, end:13, text:"flight",
type:"@flight_type"\x7d` (the label keeps its `@`). -/
theorem dialogflow_c1 (chunks : List Chunk) (u : String) (es : List Entity)
    (h : _join_text_chunks chunks = .ok (u, es)) :
    u = spec_concat_texts chunks ∧ es = spec_spans chunks 0 := by
  obtain ⟨h1, h2⟩ := _join_aux_spec chunks "" [] u es h
  exact ⟨h1.trans (str_empty_append _), by simpa using h2⟩

/-- Counterexample to C1 as stated: on the claim's own example chunks the
produced span is labelled `"@flight_type"` (the raw `meta` value), not
`"flight_type"`. -/
theorem dialogflow_c1_counterexample :
    _join_text_chunks
        [⟨"book a ", none, none⟩, ⟨"flight", some "@flight_type", none⟩]
      = .ok ("book a flight", [⟨7, 13, "flight", "@flight_type"⟩])
    ∧ _join_text_chunks
        [⟨"book a ", none, none⟩, ⟨"flight", some "@flight_type", none⟩]
      ≠ .ok ("book a flight", [⟨7, 13, "flight", "flight_type"⟩]) := by
  decide

/-- Witness for C1 at the example chunks. -/
theorem dialogflow_c1_witness :
    "book a flight" = spec_concat_texts
        [⟨"book a ", none, none⟩, ⟨"flight", some "@flight_type", none⟩]
    ∧ [(⟨7, 13, "flight", "@flight_type"⟩ : Entity)] = spec_spans
        [⟨"book a ", none, none⟩, ⟨"flight", some "@flight_type", none⟩] 0 :=
  dialogflow_c1
    [⟨"book a ", none, none⟩, ⟨"flight", some "@flight_type", none⟩]
    "book a flight" [⟨7, 13, "flight", "@flight_type"⟩] (by decide)

/-- Claim C3: a chunk whose resolved entity type label is `"@sys.ignore"`
produces no span, and no output of the intent path — neither of
`_join_text_chunks` nor of `_read_intent` — ever contains a span with
type `"@sys.ignore"`. -/
theorem dialogflow_c3 (c : Chunk) (off : Nat)
    (hc : chunk_entity_type c = .ok "@sys.ignore") :
    _extract_entity c off = .ok none
    ∧ (∀ chunks u es, _join_text_chunks chunks = .ok (u, es) →
        ∀ e ∈ es, e.entity ≠ "@sys.ignore")
    ∧ (∀ ij ej td, _read_intent ij ej = .ok td →
        ∀ m ∈ td.training_examples, ∀ e ∈ m.entities,
          e.entity ≠ "@sys.ignore") := by
  refine ⟨?_, fun chunks u es h => _join_text_chunks_ne h, ?_⟩
  · rw [_extract_entity_eq]
    cases hm : c.meta_ with
    | none => simp [chunk_entity_type, hm] at hc
    | some m =>
      unfold chunk_entity_type at hc
      rw [hm] at hc
      simp at hc
      simp [hc]
  · intro ij ej td h m hm e he
    unfold _read_intent at h
    cases ij with
    | arr l => exact absurd h (by simp)
    | obj r =>
      cases ej with
      | obj r' => exact absurd h (by simp)
      | arr exs =>
        have h' : (_read_intent_examples r.name exs >>= fun msgs =>
            Except.ok (⟨msgs, [], none⟩ : TrainingData)) = Except.ok td := h
        cases hr : _read_intent_examples r.name exs with
        | error err => rw [hr, except_bind_error] at h'; exact absurd h' (by simp)
        | ok msgs =>
          rw [hr, except_bind_ok] at h'
          obtain rfl : (⟨msgs, [], none⟩ : TrainingData) = td := by simpa using h'
          exact _read_intent_examples_ne hr m hm e he

/-- Witness for C3 at a concrete `meta: "@sys.ignore"` chunk. -/
theorem dialogflow_c3_witness :
    _extract_entity ⟨"later", some "@sys.ignore", none⟩ 0 = .ok none
    ∧ (∀ chunks u es, _join_text_chunks chunks = .ok (u, es) →
        ∀ e ∈ es, e.entity ≠ "@sys.ignore")
    ∧ (∀ ij ej td, _read_intent ij ej = .ok td →
        ∀ m ∈ td.training_examples, ∀ e ∈ m.entities,
          e.entity ≠ "@sys.ignore") :=
  dialogflow_c3 ⟨"later", some "@sys.ignore", none⟩ 0 rfl

/-- Claim C6: the entities path produces a lookup table named after the
root record's `name` whose elements are exactly the synonym values,
flattened across all example records' `synonyms` fields, that contain no
`@' character; when that element list is empty no lookup table is
produced. -/
theorem dialogflow_c6 (name : Option String) (exs : List DFExample) :
    (_extract_lookup_tables name exs =
      if (exs.flatMap (fun e => (e.synonyms.getD []).filter
            (fun s => ! at_sign_in s))).isEmpty
      then none
      else some [⟨name, exs.flatMap (fun e => (e.synonyms.getD []).filter
            (fun s => ! at_sign_in s))⟩])
    ∧ (∀ r td, _read_entities (.obj r) (.arr exs) = .ok td →
        td.lookup_tables = _extract_lookup_tables r.name exs) := by
  constructor
  · rw [← lookup_elements_eq]
    rfl
  · intro r td h
    have h2 : (Except.ok (⟨[], transform_entity_synonyms exs,
          _extract_lookup_tables r.name exs⟩ : TrainingData)
        : Except DFError TrainingData) = .ok td := h
    obtain rfl : (⟨[], transform_entity_synonyms exs,
        _extract_lookup_tables r.name exs⟩ : TrainingData) = td := by
      simpa using h2
    rfl

/-- Witness for C6 at the spec's example: root name `"cities"`, records
`[\x7bsynonyms:["NYC","New York","@city_ref"]\x7d]`. -/
theorem dialogflow_c6_witness :
    _extract_lookup_tables (some "cities")
        [⟨none, none, some ["NYC", "New York", "@city_ref"]⟩]
      = some [⟨some "cities", ["NYC", "New York"]⟩]
    ∧ (⟨[], [], some [⟨some "cities", ["NYC", "New York"]⟩]⟩
        : TrainingData).lookup_tables
      = _extract_lookup_tables (some "cities")
          [⟨none, none, some ["NYC", "New York", "@city_ref"]⟩] := by
  have h := dialogflow_c6 (some "cities")
    [⟨none, none, some ["NYC", "New York", "@city_ref"]⟩]
  exact ⟨h.1.trans (by decide),
    h.2 ⟨some "cities"⟩ ⟨[], [], some [⟨some "cities", ["NYC", "New York"]⟩]⟩
      (by decide)⟩

/-- Witness for C10: sibling file present with content `[]`. -/
theorem dialogflow_c10_witness :
    read
        (fun p =>
          if p = "greet.json" then some (.obj ⟨some "greet"⟩)
          else if p = "greet_usersays_en.json" then some (.arr []) else none)
        "greet.json" "en" DIALOGFLOW_INTENT
      = .ok (true, TrainingData.empty)
    ∧ ∀ fs' : FileSystem, fs' "greet.json" = some (.obj ⟨some "greet"⟩) →
        fs' (_examples_fn "greet.json" "en" DIALOGFLOW_INTENT) = none →
        read fs' "greet.json" "en" DIALOGFLOW_INTENT
          = read
              (fun p =>
                if p = "greet.json" then some (.obj ⟨some "greet"⟩)
                else if p = "greet_usersays_en.json" then some (.arr []) else none)
              "greet.json" "en" DIALOGFLOW_INTENT :=
  dialogflow_c10
    (fun p =>
      if p = "greet.json" then some (.obj ⟨some "greet"⟩)
      else if p = "greet_usersays_en.json" then some (.arr []) else none)
    "greet.json" "en" DIALOGFLOW_INTENT (.obj ⟨some "greet"⟩)
    (Or.inl rfl) (by decide) (by decide)

/-- Claim C4: when an instance exists, `scheduler` returns that identical
instance unchanged if the caller's loop equals the instance's bound loop,
fails with the inconsistent-context error when the loops differ, and never
returns a scheduler bound to a loop other than the caller's. -/
theorem jobs_c4 (env : SchedEnv) (loop : Nat) (st : SchedState) (s₀ : Sched)
    (h : st.inst = some s₀) :
    (s₀.eventloop = loop → scheduler env loop st = ⟨[], false, .ok (s₀, st)⟩)
    ∧ (s₀.eventloop ≠ loop →
        (scheduler env loop st).result = .error .inconsistentContext)
    ∧ (∀ s st', (scheduler env loop st).result = .ok (s, st') →
        s.eventloop = loop) := by
  refine ⟨fun he => ?_, fun hne => ?_, fun s st' hok => ?_⟩
  · simp [scheduler, h, he]
  · simp [scheduler, h, hne]
  · rw [scheduler] at hok
    rw [h] at hok
    by_cases he : s₀.eventloop = loop
    · simp only [he, if_true] at hok
      obtain ⟨rfl, rfl⟩ : s₀ = s ∧ st = st' := by simpa using hok
      exact he
    · simp [he] at hok

/-- Witness for C4: a live instance bound to loop 5, accessed from loop 5
and from loop 6. -/
theorem jobs_c4_witness :
    scheduler ⟨true, none⟩ 5 ⟨some ⟨0, 5, true, .localtz⟩, 1⟩
      = ⟨[], false, .ok (⟨0, 5, true, .localtz⟩, ⟨some ⟨0, 5, true, .localtz⟩, 1⟩)⟩
    ∧ (scheduler ⟨true, none⟩ 6 ⟨some ⟨0, 5, true, .localtz⟩, 1⟩).result
      = .error .inconsistentContext :=
  ⟨(jobs_c4 ⟨true, none⟩ 5 ⟨some ⟨0, 5, true, .localtz⟩, 1⟩ ⟨0, 5, true, .localtz⟩
      rfl).1 rfl,
   (jobs_c4 ⟨true, none⟩ 6 ⟨some ⟨0, 5, true, .localtz⟩, 1⟩ ⟨0, 5, true, .localtz⟩
      rfl).2.1 (by decide)⟩

/-- Claim C7: with no live instance and an unresolvable local time zone,
`scheduler` warns and retries construction exactly once forcing UTC
(attempt list `[localtz, utc]`); if the UTC retry fails, that failure
propagates unhandled.  Moreover no call anywhere attempts more than two
constructions or more than one UTC construction. -/
theorem jobs_c7 (env : SchedEnv) (loop : Nat) (st : SchedState)
    (h1 : st.inst = none) (h2 : env.localTzKnown = false) :
    (scheduler env loop st).warned = true
    ∧ (scheduler env loop st).attempts = [.localtz, .utc]
    ∧ (env.utcFailure = none →
        (scheduler env loop st).result
          = .ok (⟨st.nextId, loop, true, .utc⟩,
              ⟨some ⟨st.nextId, loop, true, .utc⟩, st.nextId + 1⟩))
    ∧ (∀ e, env.utcFailure = some e →
        (scheduler env loop st).result = .error e)
    ∧ (∀ (env' : SchedEnv) (loop' : Nat) (st' : SchedState),
        (scheduler env' loop' st').attempts.length ≤ 2
        ∧ (scheduler env' loop' st').attempts.count Tz.utc ≤ 1) := by
  refine ⟨?_, ?_, fun hu => ?_, fun e hu => ?_, fun env' loop' st' => ?_⟩
  · cases hu : env.utcFailure <;> simp [scheduler, h1, h2, hu]
  · cases hu : env.utcFailure <;> simp [scheduler, h1, h2, hu]
  · simp [scheduler, h1, h2, hu]
  · simp [scheduler, h1, h2, hu]
  · unfold scheduler
    cases st'.inst with
    | none =>
      by_cases hl : env'.localTzKnown <;>
        cases hu : env'.utcFailure <;>
          simp [hl, hu, List.count_cons]
    | some s =>
      by_cases he : s.eventloop = loop' <;> simp [he]

/-- Witness for C7: empty state, unresolvable local time zone, both a
succeeding and (via a second application) a failing UTC retry. -/
theorem jobs_c7_witness :
    ((scheduler ⟨false, none⟩ 0 SchedState.init).warned = true
      ∧ (scheduler ⟨false, none⟩ 0 SchedState.init).attempts = [.localtz, .utc]
      ∧ (scheduler ⟨false, none⟩ 0 SchedState.init).result
          = .ok (⟨0, 0, true, .utc⟩, ⟨some ⟨0, 0, true, .utc⟩, 1⟩))
    ∧ (scheduler ⟨false, some .constructionFailure⟩ 0 SchedState.init).result
        = .error .constructionFailure :=
  ⟨⟨(jobs_c7 ⟨false, none⟩ 0 SchedState.init rfl rfl).1,
    (jobs_c7 ⟨false, none⟩ 0 SchedState.init rfl rfl).2.1,
    (jobs_c7 ⟨false, none⟩ 0 SchedState.init rfl rfl).2.2.1 rfl⟩,
   (jobs_c7 ⟨false, some .constructionFailure⟩ 0 SchedState.init rfl rfl).2.2.2.1
     .constructionFailure rfl⟩

/-- Invariant of reachable histories: the identifier of the live instance,
and of every instance ever returned, is below the fresh-identifier
supply. -/
lemma hist_id_lt {st : SchedState} {rets : List Sched} (h : Hist st rets) :
    (∀ s₀, st.inst = some s₀ → s₀.id < st.nextId)
    ∧ (∀ r ∈ rets, r.id < st.nextId) := by
  induction h with
  | init => simp [SchedState.init]
  | @get st rets env loop s st' hh hok ih =>
    rw [scheduler] at hok
    cases hst : st.inst with
    | none =>
      rw [hst] at hok
      by_cases hl : env.localTzKnown
      · simp only [hl, if_true] at hok
        obtain ⟨rfl, rfl⟩ :
            (⟨st.nextId, loop, true, .localtz⟩ : Sched) = s
            ∧ (⟨some ⟨st.nextId, loop, true, .localtz⟩, st.nextId + 1⟩
                : SchedState) = st' := by
          simpa using hok
        refine ⟨by simp, ?_⟩
        intro r hr
        rcases List.mem_cons.mp hr with rfl | hr'
        · simp
        · exact Nat.lt_succ_of_lt (ih.2 r hr')
      · simp only [hl, if_false] at hok
        cases hu : env.utcFailure with
        | some e => rw [hu] at hok; exact absurd hok (by simp)
        | none =>
          rw [hu] at hok
          obtain ⟨rfl, rfl⟩ :
              (⟨st.nextId, loop, true, .utc⟩ : Sched) = s
              ∧ (⟨some ⟨st.nextId, loop, true, .utc⟩, st.nextId + 1⟩
                  : SchedState) = st' := by
            simpa using hok
          refine ⟨by simp, ?_⟩
          intro r hr
          rcases List.mem_cons.mp hr with rfl | hr'
          · simp
          · exact Nat.lt_succ_of_lt (ih.2 r hr')
    | some s₀ =>
      rw [hst] at hok
      by_cases he : s₀.eventloop = loop
      · simp only [he, if_true] at hok
        obtain ⟨rfl, rfl⟩ : s₀ = s ∧ st = st' := by simpa using hok
        refine ⟨ih.1, ?_⟩
        intro r hr
        rcases List.mem_cons.mp hr with rfl | hr'
        · exact ih.1 r hst
        · exact ih.2 r hr'
      · simp [he] at hok
  | @kill st rets hh ih =>
    unfold kill_scheduler
    cases hst : st.inst with
    | none => simpa [hst] using ih
    | some s₀ =>
      refine ⟨by simp, ?_⟩
      intro r hr
      exact ih.2 r hr

/-- Claim C9: `kill_scheduler` is total — it clears the singleton, is a
no-op on the empty state, and reports the stopped instance when one was
live; after it, a successful `scheduler` call constructs (a non-empty
attempt list) and returns an instance distinct from every previously
returned one and from the killed one. -/
theorem jobs_c9 (st st' : SchedState) (rets : List Sched) (env : SchedEnv)
    (loop : Nat) (s : Sched)
    (hh : Hist st rets)
    (hok : (scheduler env loop (kill_scheduler st).2).result = .ok (s, st')) :
    (kill_scheduler st).2.inst = none
    ∧ (st.inst = none → kill_scheduler st = (none, st))
    ∧ (∀ s₀, st.inst = some s₀ →
        (kill_scheduler st).1 = some ⟨s₀.id, s₀.eventloop, false, s₀.timezone⟩)
    ∧ (scheduler env loop (kill_scheduler st).2).attempts ≠ []
    ∧ (∀ r ∈ rets, r.id ≠ s.id)
    ∧ (∀ s₀, st.inst = some s₀ → s₀.id ≠ s.id) := by
  have hclear : (kill_scheduler st).2.inst = none := by
    unfold kill_scheduler
    cases hst : st.inst <;> simp [hst]
  have hnk : (kill_scheduler st).2.nextId = st.nextId := by
    unfold kill_scheduler
    cases hst : st.inst <;> simp
  have hsid : s.id = (kill_scheduler st).2.nextId := by
    rw [scheduler] at hok
    simp only [hclear] at hok
    by_cases hl : env.localTzKnown
    · simp only [hl, if_true] at hok
      obtain ⟨rfl, rfl⟩ :
          (⟨(kill_scheduler st).2.nextId, loop, true, .localtz⟩ : Sched) = s
          ∧ (⟨some ⟨(kill_scheduler st).2.nextId, loop, true, .localtz⟩,
              (kill_scheduler st).2.nextId + 1⟩ : SchedState) = st' := by
        simpa using hok
      rfl
    · simp only [hl, if_false] at hok
      cases hu : env.utcFailure with
      | some e => rw [hu] at hok; exact absurd hok (by simp)
      | none =>
        rw [hu] at hok
        obtain ⟨rfl, rfl⟩ :
            (⟨(kill_scheduler st).2.nextId, loop, true, .utc⟩ : Sched) = s
            ∧ (⟨some ⟨(kill_scheduler st).2.nextId, loop, true, .utc⟩,
                (kill_scheduler st).2.nextId + 1⟩ : SchedState) = st' := by
          simpa using hok
        rfl
  refine ⟨hclear, fun h0 => ?_, fun s₀ h0 => ?_, ?_, fun r hr => ?_,
    fun s₀ h0 => ?_⟩
  · simp [kill_scheduler, h0]
  · simp [kill_scheduler, h0]
  · rw [scheduler]
    simp only [hclear]
    by_cases hl : env.localTzKnown <;> cases hu : env.utcFailure <;>
      simp [hl, hu]
  · have hlt := (hist_id_lt hh).2 r hr
    rw [hsid, hnk]
    exact Nat.ne_of_lt hlt
  · have hlt := (hist_id_lt hh).1 s₀ h0
    rw [hsid, hnk]
    exact Nat.ne_of_lt hlt

/-- Witness for C9: one instance returned and live, then killed, then a
fresh construction with a distinct identifier. -/
theorem jobs_c9_witness :
    (kill_scheduler ⟨some ⟨0, 0, true, .localtz⟩, 1⟩).2.inst = none
    ∧ ((⟨some ⟨0, 0, true, Tz.localtz⟩, 1⟩ : SchedState).inst = none →
        kill_scheduler ⟨some ⟨0, 0, true, .localtz⟩, 1⟩
          = (none, ⟨some ⟨0, 0, true, .localtz⟩, 1⟩))
    ∧ (∀ s₀, (⟨some ⟨0, 0, true, Tz.localtz⟩, 1⟩ : SchedState).inst = some s₀ →
        (kill_scheduler ⟨some ⟨0, 0, true, .localtz⟩, 1⟩).1
          = some ⟨s₀.id, s₀.eventloop, false, s₀.timezone⟩)
    ∧ (scheduler ⟨true, none⟩ 0
        (kill_scheduler ⟨some ⟨0, 0, true, .localtz⟩, 1⟩).2).attempts ≠ []
    ∧ (∀ r ∈ [(⟨0, 0, true, Tz.localtz⟩ : Sched)],
        r.id ≠ (⟨1, 0, true, Tz.localtz⟩ : Sched).id)
    ∧ (∀ s₀, (⟨some ⟨0, 0, true, Tz.localtz⟩, 1⟩ : SchedState).inst = some s₀ →
        s₀.id ≠ (⟨1, 0, true, Tz.localtz⟩ : Sched).id) :=
  jobs_c9 ⟨some ⟨0, 0, true, .localtz⟩, 1⟩ ⟨some ⟨1, 0, true, .localtz⟩, 2⟩
    [⟨0, 0, true, .localtz⟩] ⟨true, none⟩ 0 ⟨1, 0, true, .localtz⟩
    (Hist.get Hist.init
      (show (scheduler ⟨true, none⟩ 0 SchedState.init).result
          = .ok (⟨0, 0, true, .localtz⟩, ⟨some ⟨0, 0, true, .localtz⟩, 1⟩)
        from rfl))
    rfl

end Rasa
